import Mathlib

/-!
# A verification model of `envdecode`

This file gives a shallow embedding, in Lean, of the Go package `envdecode`
(`src/envdecode.go`, `src/options.go`), which populates struct fields from
environment variables according to `env` struct tags, together with proofs
about that embedding.

## The embedding

A Go struct is modelled as a list of fields (`Fields`); each `Field` carries
its name, its raw `env` tag string, a `canSet` flag (whether the field is
exported, i.e. settable through reflection), and a typed value (`FieldVal`).
The `FieldVal` constructors mirror the reflection `Kind`s that
`src/envdecode.go` dispatches on:

* `vBool`, `vInt bits`, `vUint bits`, `vString` — the scalar kinds (the
  `reflect.Bool`, `Int*`, `Uint*` and `String` cases of the coercion switch);
  `bits` is the value of `f.Type().Bits()`.  Floating-point fields and the
  `time.Duration` special case of the `Int64` kind are not modelled (no claim
  concerns them); neither are numeric literals with `_` digit separators.
* `vURLNil` / `vURLSome` — a `*url.URL` field (nil / non-nil).
* `vPtrOther` — a pointer field whose element type is neither a struct nor
  `url.URL` (for example the `IgnoredPtr *bool` field of the tests).
* `vStruct` — a nested struct held by value.
* `vStructPtrNil` / `vStructPtr` — a `*T` field with `T` a (non-`url.URL`)
  struct (nil / non-nil).
* `vSlice` — a slice field (with `string` elements); the coercion switch of
  `src/envdecode.go` has no `reflect.Slice` case, so such a field is counted
  but never written by `Decode`.
* `vCustom` — a string-kind named type that exposes a custom
  `Decode(string) error` method (like `decoderString` in the tests).  The
  code in `src/envdecode.go` has no decoder hook, so its kind switch treats
  such a field exactly like `reflect.String`; the hook itself is modelled
  separately from the spec (see `coerceFull`).

The environment (`os.Getenv`) is a parameter `env : String → String`, with
`""` meaning "absent", exactly as in Go.

Core `String` functions such as `String.splitOn` are not kernel-reducible,
so the model re-implements the string primitives it needs structurally over
`List Char` (`splitChar`, `startsWithL`, `trimChars`); all tag and value
strings in scope are ASCII, where these agree with Go's byte-based
`strings.Split`, `strings.HasPrefix`, `o[8:]` and `strings.TrimSpace`.

A Go panic (`reflect` panics on `Addr().Interface()` for unexported struct
fields, and `Decode` itself panics on a tag carrying both `required` and
`default=`) is modelled as the terminal result `panic`; the in-place
mutations performed before a panic unwinds are not observed by any claim and
are not modelled.
-/

namespace Envdecode

/-! ## String primitives (structural models of the Go stdlib functions used) -/

/-- Model of `strings.Split(s, sep)` for a one-byte separator, over chars. -/
def splitChar (sep : Char) : List Char → List (List Char)
  | [] => [[]]
  | c :: cs =>
    let r := splitChar sep cs
    if c = sep then [] :: r
    else (c :: r.headD []) :: r.tail

/-- Model of `strings.HasPrefix` over chars: does `cs` start with `p`? -/
def startsWithL : List Char → List Char → Bool
  | [], _ => true
  | _ :: _, [] => false
  | p :: ps, c :: cs => p = c && startsWithL ps cs

/-- The ASCII whitespace set of `strings.TrimSpace` (`"\t\n\v\f\r "`). -/
def isSpaceChar (c : Char) : Bool :=
  c = ' ' || c = '\t' || c = '\n' || c = '\r' || c.toNat = 11 || c.toNat = 12

/-- Model of `strings.TrimSpace` (ASCII range). -/
def trimChars (cs : List Char) : List Char :=
  ((cs.dropWhile isSpaceChar).reverse.dropWhile isSpaceChar).reverse

/-- `strings.TrimSpace` as a `String → String` function. -/
def trimStr (s : String) : String :=
  String.mk (trimChars s.data)

/-! ## Models of the `strconv`, `time` and `net/url` parsers used by `Decode` -/

/-- Digit value of a character, as in `strconv`'s `ParseUint` loop
(`0`–`9`, `a`–`z`, `A`–`Z`); whether it is in range for the base is
checked at the use site. -/
def digitVal (c : Char) : Option Nat :=
  if '0' ≤ c ∧ c ≤ '9' then some (c.toNat - '0'.toNat)
  else if 'a' ≤ c ∧ c ≤ 'z' then some (c.toNat - 'a'.toNat + 10)
  else if 'A' ≤ c ∧ c ≤ 'Z' then some (c.toNat - 'A'.toNat + 10)
  else none

/-- Accumulate digits of the given base, failing on any non-digit
(this is the main loop of `strconv.ParseUint`). -/
def parseDigits (base : Nat) (cs : List Char) : Option Nat :=
  cs.foldl
    (fun acc c =>
      acc.bind fun n =>
        (digitVal c).bind fun d =>
          if d < base then some (n * base + d) else none)
    (some 0)

/-- Model of `strconv.ParseUint(s, 0, _)` without the range check: base
auto-detection of the `0b`/`0o`/`0x` prefixes (which require at least one
digit after the prefix) and of the legacy leading-`0` octal form. -/
def parseUintChars : List Char → Option Nat
  | [] => none
  | ['0'] => some 0
  | '0' :: c :: rest =>
    if (c = 'b' ∨ c = 'B') ∧ rest ≠ [] then parseDigits 2 rest
    else if (c = 'o' ∨ c = 'O') ∧ rest ≠ [] then parseDigits 8 rest
    else if (c = 'x' ∨ c = 'X') ∧ rest ≠ [] then parseDigits 16 rest
    else parseDigits 8 (c :: rest)
  | cs => parseDigits 10 cs

/-- Model of `strconv.ParseUint(s, 0, bits)`: `none` models a non-nil
error (syntax or range), in which case `Decode` leaves the field alone. -/
def parseUint (s : String) (bits : Nat) : Option Nat :=
  (parseUintChars s.data).bind fun n => if n < 2 ^ bits then some n else none

/-- Model of `strconv.ParseInt(s, 0, bits)`: an optional sign followed by
the unsigned form, with the asymmetric two's-complement range check. -/
def parseInt (s : String) (bits : Nat) : Option Int :=
  match s.data with
  | [] => none
  | c :: rest =>
    if c = '+' then
      (parseUintChars rest).bind fun n =>
        if n < 2 ^ (bits - 1) then some (n : Int) else none
    else if c = '-' then
      (parseUintChars rest).bind fun n =>
        if n ≤ 2 ^ (bits - 1) then some (-(n : Int)) else none
    else
      (parseUintChars (c :: rest)).bind fun n =>
        if n < 2 ^ (bits - 1) then some (n : Int) else none

/-- Model of `strconv.ParseBool`: exactly the twelve accepted literals. -/
def parseBool (s : String) : Option Bool :=
  match s with
  | "1" | "t" | "T" | "true" | "TRUE" | "True" => some true
  | "0" | "f" | "F" | "false" | "FALSE" | "False" => some false
  | _ => none

/-- Simplified model of `url.Parse`: it fails on ASCII control characters
and otherwise succeeds; the parsed URL is represented by its source text.
(The claims under study do not depend on finer URL grammar.) -/
def urlParse (s : String) : Option String :=
  if s.data.any (fun c => c.toNat < 32 ∨ c.toNat = 127) then none else some s

/-! ## The record graph -/

mutual
inductive FieldVal where
  | vBool (b : Bool)
  | vInt (bits : Nat) (v : Int)
  | vUint (bits : Nat) (v : Nat)
  | vString (s : String)
  | vCustom (s : String)
  | vURLNil
  | vURLSome (u : String)
  | vPtrOther (present : Bool)
  | vSlice (elems : List String)
  | vStruct (fs : Fields)
  | vStructPtrNil
  | vStructPtr (fs : Fields)

inductive Field where
  | mk (name : String) (tag : String) (canSet : Bool) (val : FieldVal)

inductive Fields where
  | nil
  | cons (f : Field) (fs : Fields)
end

/-- Concatenation of field lists (used to speak about "the fields before /
after a given field" in declaration order). -/
def Fields.append : Fields → Fields → Fields
  | .nil, gs => gs
  | .cons f fs, gs => .cons f (fs.append gs)

/-- The kinds on which the walk of `src/envdecode.go` does not recurse
before the tag is handled: everything except a by-value nested struct and a
non-nil pointer to a non-`url.URL` struct. -/
def isLeafVal : FieldVal → Bool
  | .vStruct _ => false
  | .vStructPtr _ => false
  | _ => true

/-- The argument passed to `Decode`: Go's `interface{}` target collapses,
for the purposes of lines 49–58 of `src/envdecode.go`, into these four
shapes. -/
inductive Target where
  | nonPtr
  | nilPtr
  | ptrToNonStruct
  | ptrToStruct (flds : Fields)

/-- Outcome of processing one field of the loop body (lines 62–165). -/
inductive FieldRes where
  | panic
  | errMissing (key : String) (fld : Field)
  | ok (fld : Field) (count : Nat)

/-- Outcome of the whole field loop: a panic, an early `return` with the
missing-required-key error (with the fields as mutated so far), or normal
completion with the mutated fields and the `setFieldCount` value. -/
inductive WalkRes where
  | panic
  | errMissing (key : String) (flds : Fields)
  | ok (flds : Fields) (count : Nat)

/-- Result of `Decode`: the `error` return value together with the final
state of the target struct (Go mutates it in place through the pointer). -/
inductive DecodeResult where
  | panicked
  | invalidTarget (flds : Option Fields)
  | missingKey (key : String) (flds : Fields)
  | success (flds : Fields)

/-! ## Tag scanning and value coercion -/

/-- The option scan of lines 91–103 of `src/envdecode.go`, over the
comma-separated tokens after the key: `required` is set by any token with
prefix `required`; any token with prefix `default=` sets `hasDefault` and
(last occurrence winning) `defaultValue` to the rest of the token.
Returns `(required, hasDefault, defaultValue)`. -/
def scanOptions (opts : List (List Char)) : Bool × Bool × String :=
  opts.foldl
    (fun acc o =>
      let req := acc.1 || startsWithL "required".data o
      if startsWithL "default=".data o then (req, true, String.mk (o.drop 8))
      else (req, acc.2.1, acc.2.2))
    (false, false, "")

/-- The key of a tag: the first comma-separated token (`parts[0]`). -/
def tagKey (tag : String) : String :=
  String.mk ((splitChar ',' tag.data).headD [])

/-- The `(required, hasDefault, defaultValue)` triple of a tag
(`parts[1:]` scanned by `scanOptions`). -/
def tagOpts (tag : String) : Bool × Bool × String :=
  scanOptions (splitChar ',' tag.data).tail

/-- The coercion switch of lines 121–165 of `src/envdecode.go`, dispatching
on the (possibly `Elem`-reassigned) kind of the field: scalar kinds parse
with the `strconv` functions and keep the old value on a parse error;
`String` assigns verbatim; `Ptr` only handles a nil `*url.URL`; every other
kind (struct kinds reached through the `fallthrough`, slices, non-URL
pointers) falls out of the switch and leaves the value unchanged.
A `vCustom` value has kind `String`, so this code assigns it verbatim —
`src/envdecode.go` has no custom-decoder hook. -/
def coerce (val : FieldVal) (s : String) : FieldVal :=
  match val with
  | .vBool b => match parseBool s with | some v => .vBool v | none => .vBool b
  | .vInt bits v => match parseInt s bits with | some w => .vInt bits w | none => .vInt bits v
  | .vUint bits v => match parseUint s bits with | some w => .vUint bits w | none => .vUint bits v
  | .vString _ => .vString s
  | .vCustom _ => .vCustom s
  | .vURLNil => match urlParse s with | some u => .vURLSome u | none => .vURLNil
  | .vURLSome u => .vURLSome u
  | .vPtrOther p => .vPtrOther p
  | .vSlice l => .vSlice l
  | .vStruct fs => .vStruct fs
  | .vStructPtrNil => .vStructPtrNil
  | .vStructPtr fs => .vStructPtr fs

/-- Lines 79–165 of `src/envdecode.go`, after the recursion switch: skip
unsettable or untagged fields; split the tag, look the key up, scan the
options; panic when `required` and `default` are both present; return the
missing-key error when the key is absent and `required`; default the value;
skip when the resolved value is empty; otherwise bump `setFieldCount` and
run the coercion `co`.  `val` is the value the (possibly `Elem`-reassigned)
reflection handle points at. -/
def handleTag (co : FieldVal → String → FieldVal) (env : String → String)
    (name tag : String) (canSet : Bool) (val : FieldVal) : FieldRes :=
  if canSet = false then .ok (.mk name tag canSet val) 0
  else if tag = "" then .ok (.mk name tag canSet val) 0
  else
    let envVal := env (tagKey tag)
    let opts := tagOpts tag
    if opts.1 = true ∧ opts.2.1 = true then .panic
    else if envVal = "" ∧ opts.1 = true then .errMissing (tagKey tag) (.mk name tag canSet val)
    else
      let resolved := if envVal = "" then opts.2.2 else envVal
      if resolved = "" then .ok (.mk name tag canSet val) 0
      else .ok (.mk name tag canSet (co val resolved)) 1

/-! ## The walk

`processFieldWith` is the loop body of `Decode` (lines 62–165) and
`walkFieldsWith` the loop itself, parameterised by the coercion function so
that the spec-modelled full engine below can reuse the same traversal.  The
recursion switch (lines 65–77) recurses into by-value structs and non-nil
struct pointers; the recursive `Decode(ss)` call's *returned error is
discarded* (line 76) — only the in-place mutation of the nested struct and
any panic escape it, so the model inlines the nested field walk.  For an
unexported (non-settable) struct-kind field, `f.Addr().Interface()` panics
in the `reflect` package, before the `CanSet` check is reached.  A non-nil
`*url.URL` field also has `Elem` kind `Struct`, so it is "recursed into"
(a no-op: `url.URL` carries no `env` tags, and the inner error is
discarded) and its handle is reassigned to the elem, whose `Struct` kind no
coercion case matches — so a non-nil URL field is never overwritten. -/

mutual
def processFieldWith (co : FieldVal → String → FieldVal) (env : String → String) :
    Field → FieldRes
  | .mk name tag canSet val =>
    match val with
    | .vStruct fs =>
      if canSet then
        match walkFieldsWith co env fs with
        | .panic => .panic
        | .errMissing _ fs' => handleTag co env name tag canSet (.vStruct fs')
        | .ok fs' _ => handleTag co env name tag canSet (.vStruct fs')
      else .panic
    | .vStructPtr fs =>
      if canSet then
        match walkFieldsWith co env fs with
        | .panic => .panic
        | .errMissing _ fs' => handleTag co env name tag canSet (.vStructPtr fs')
        | .ok fs' _ => handleTag co env name tag canSet (.vStructPtr fs')
      else .panic
    | .vURLSome u =>
      if canSet then handleTag co env name tag canSet (.vURLSome u) else .panic
    | v => handleTag co env name tag canSet v

def walkFieldsWith (co : FieldVal → String → FieldVal) (env : String → String) :
    Fields → WalkRes
  | .nil => .ok .nil 0
  | .cons f rest =>
    match processFieldWith co env f with
    | .panic => .panic
    | .errMissing k f' => .errMissing k (.cons f' rest)
    | .ok f' n =>
      match walkFieldsWith co env rest with
      | .panic => .panic
      | .errMissing k flds => .errMissing k (.cons f' flds)
      | .ok flds m => .ok (.cons f' flds) (n + m)
end

/-- The loop body with the coercion switch of `src/envdecode.go`. -/
def processField (env : String → String) : Field → FieldRes :=
  processFieldWith coerce env

/-- The field loop of `Decode` with the coercion switch of
`src/envdecode.go`. -/
def walkFields (env : String → String) : Fields → WalkRes :=
  walkFieldsWith coerce env

/-- `Decode` (lines 49–175 of `src/envdecode.go`): reject a non-pointer,
nil, or non-struct target with `ErrInvalidTarget` before any side effect;
otherwise walk the fields; a zero `setFieldCount` at the end is again
`ErrInvalidTarget` (with the struct in its — possibly mutated — final
state). -/
def Decode (env : String → String) : Target → DecodeResult
  | .nonPtr => .invalidTarget none
  | .nilPtr => .invalidTarget none
  | .ptrToNonStruct => .invalidTarget none
  | .ptrToStruct flds =>
    match walkFields env flds with
    | .panic => .panicked
    | .errMissing k flds' => .missingKey k flds'
    | .ok flds' n => if n = 0 then .invalidTarget (some flds') else .success flds'

/-- Discriminator: is the result the missing-required-key error? -/
def isMissingErr : DecodeResult → Bool
  | .missingKey _ _ => true
  | _ => false

/-- Discriminator: did the call abort with a panic? -/
def isPanicRes : DecodeResult → Bool
  | .panicked => true
  | _ => false

/-! ## The full coercion engine, modelled from the spec

The tests (`src/envdecode_test.go`) exercise slice decoding
(`TEST_STRING_SLICE`, …), custom decoders (`decoderString`), and
`Export`/`ConfigInfo`/`ConfigInfoSlice`/`GetenvFunc`, none of which exist in
`src/envdecode.go`; the code implementing them is not part of `src/`.  The
definitions in this section model those missing parts from the spec. -/

/-- Modelled from the spec: the per-element step of slice coercion (spec
§4.2), whose implementation is missing from `src/envdecode.go` (only the
tests exercise it).  Each segment is trimmed of surrounding whitespace and
then independently coerced by the element shape's rule; the per-element
failure policy, left open by the spec, is fixed here as dropping the failed
element. -/
def coerceSliceElems {α : Type} (elemRule : String → Option α) : List String → List α
  | [] => []
  | seg :: rest =>
    match elemRule (trimStr seg) with
    | some v => v :: coerceSliceElems elemRule rest
    | none => coerceSliceElems elemRule rest

/-- Modelled from the spec: slice coercion (spec §4.2), missing from
`src/envdecode.go` — split the resolved string on the literal `;` delimiter
and coerce the segments with `coerceSliceElems`. -/
def coerceSlice {α : Type} (elemRule : String → Option α) (s : String) : List α :=
  coerceSliceElems elemRule ((splitChar ';' s.data).map String.mk)

/-- Modelled from the spec: the full value-coercion engine (spec §4.2),
extending the coercion switch of `src/envdecode.go` with the two branches
missing from it: the custom-decode capability `cap` (which takes precedence
over every built-in rule — here over the `String`-kind rule that would
otherwise match a `vCustom` value — and on failure leaves the receiver
unchanged), and slice coercion (here for `string` elements, whose element
rule assigns the trimmed segment verbatim). -/
def coerceFull (cap : String → Option String) (val : FieldVal) (s : String) : FieldVal :=
  match val with
  | .vCustom cur =>
    match cap s with
    | some w => .vCustom w
    | none => .vCustom cur
  | .vSlice _ => .vSlice (coerceSlice (fun seg => some seg) s)
  | v => coerce v s

/-- Modelled from the spec: `Decode` as specified, i.e. the walk of
`src/envdecode.go` run with the full coercion engine `coerceFull`. -/
def DecodeFull (cap : String → Option String) (env : String → String) :
    Target → DecodeResult
  | .nonPtr => .invalidTarget none
  | .nilPtr => .invalidTarget none
  | .ptrToNonStruct => .invalidTarget none
  | .ptrToStruct flds =>
    match walkFieldsWith (coerceFull cap) env flds with
    | .panic => .panicked
    | .errMissing k flds' => .missingKey k flds'
    | .ok flds' n => if n = 0 then .invalidTarget (some flds') else .success flds'

/-! ## The export/introspection reporter, modelled from the spec

`Export`, `ConfigInfo` and `ConfigInfoSlice` are referenced by
`src/envdecode_test.go` but their code is not in `src/`; they are modelled
from spec §3 and §4.5. -/

/-- Modelled from the spec: one audit entry per configuration-bound leaf
field (spec §3 «ConfigInfo», matching the field names used by
`TestExport`): the dotted field path, the key, the stringified current
value, the default, and the `usesEnv`/`required`/`hasDefault` flags. -/
structure ConfigInfo where
  Field : String
  EnvVar : String
  Value : String
  DefaultValue : String
  UsesEnv : Bool
  Required : Bool
  HasDefault : Bool
  deriving DecidableEq

/-- Modelled from the spec: the stringification of a field's current value
used for `ConfigInfo.Value` (missing from `src/`; shapes are rendered the
way `TestExport` expects, e.g. a slice as `[foo bar]`). -/
def stringifyVal : FieldVal → String
  | .vBool b => if b then "true" else "false"
  | .vInt _ v => toString v
  | .vUint _ v => toString v
  | .vString s => s
  | .vCustom s => s
  | .vURLNil => ""
  | .vURLSome u => u
  | .vPtrOther _ => ""
  | .vSlice l => "[" ++ String.intercalate " " l ++ "]"
  | .vStruct _ => ""
  | .vStructPtrNil => ""
  | .vStructPtr _ => ""

mutual
/-- Modelled from the spec: the read-only walk of one field by the export
reporter (spec §4.5, missing from `src/`): skip unsettable fields, recurse
into by-value sub-records and into non-nil optional sub-records extending
the dotted path, skip nil optional sub-records, and emit one entry for each
leaf field whose key is non-empty. -/
def collectField (env : String → String) (pre : String) : Field → List ConfigInfo
  | .mk name tag canSet val =>
    if canSet = false then []
    else
      match val with
      | .vStruct fs => collectFields env (pre ++ name ++ ".") fs
      | .vStructPtr fs => collectFields env (pre ++ name ++ ".") fs
      | .vStructPtrNil => []
      | v =>
        if tagKey tag = "" then []
        else
          [{ Field := pre ++ name
             EnvVar := tagKey tag
             Value := stringifyVal v
             DefaultValue := (tagOpts tag).2.2
             UsesEnv := if env (tagKey tag) = "" then false else true
             Required := (tagOpts tag).1
             HasDefault := (tagOpts tag).2.1 }]

/-- Modelled from the spec: the export reporter's read-only walk of a field
list, in depth-first declaration order (spec §4.5, missing from `src/`). -/
def collectFields (env : String → String) (pre : String) : Fields → List ConfigInfo
  | .nil => []
  | .cons f fs => collectField env pre f ++ collectFields env pre fs
end

mutual
/-- The number of configuration-bound leaf fields reachable from one field:
`1` for a settable leaf with a non-empty key, the recursive count for
(non-nil) sub-records, `0` otherwise.  Defined independently of
`collectField` so the entry count of the export report can be checked
against it. -/
def countBoundLeavesF : Field → Nat
  | .mk _ tag canSet val =>
    if canSet = false then 0
    else
      match val with
      | .vStruct fs => countBoundLeaves fs
      | .vStructPtr fs => countBoundLeaves fs
      | .vStructPtrNil => 0
      | _ => if tagKey tag = "" then 0 else 1

/-- The number of configuration-bound leaf fields of a field list. -/
def countBoundLeaves : Fields → Nat
  | .nil => 0
  | .cons f fs => countBoundLeavesF f + countBoundLeaves fs
end

/-- Modelled from the spec: the stable total order on report entries
(spec §3: «lexicographic by field path then key»). -/
def ciLe (a b : ConfigInfo) : Prop :=
  a.Field < b.Field ∨ (a.Field = b.Field ∧ a.EnvVar ≤ b.EnvVar)

instance : DecidableRel ciLe := fun a b => by
  unfold ciLe
  infer_instance

instance : IsTrans ConfigInfo ciLe :=
  ⟨by
    intro a b c hab hbc
    rcases hab with h1 | ⟨h1, h1'⟩ <;> rcases hbc with h2 | ⟨h2, h2'⟩
    · exact Or.inl (lt_trans h1 h2)
    · exact Or.inl (h2 ▸ h1)
    · exact Or.inl (h1 ▸ h2)
    · exact Or.inr ⟨h1.trans h2, le_trans h1' h2'⟩⟩

instance : IsTotal ConfigInfo ciLe :=
  ⟨by
    intro a b
    rcases lt_trichotomy a.Field b.Field with h | h | h
    · exact Or.inl (Or.inl h)
    · rcases le_total a.EnvVar b.EnvVar with h' | h'
      · exact Or.inl (Or.inr ⟨h, h'⟩)
      · exact Or.inr (Or.inr ⟨h.symm, h'⟩)
    · exact Or.inr (Or.inl h)⟩

/-- Modelled from the spec: `export(target)` (spec §4.5, referenced by
`TestExport` but missing from `src/`): the same structural traversal as the
decode walk, without mutating any field, producing one `ConfigInfo` per
configuration-bound leaf field in depth-first declaration order and
returning the entries sorted by the stable total order `ciLe`; a target
that is not a pointer to a struct is an error. -/
def Export (env : String → String) : Target → Except Unit (List ConfigInfo)
  | .ptrToStruct flds => .ok (List.insertionSort ciLe (collectFields env "" flds))
  | _ => .error ()


/-! ## Model sanity checks

Concrete evaluations of the model on the scenarios of
`src/envdecode_test.go` (all closed, by kernel reduction). -/

example : parseUint "60000" 16 = some 60000 := rfl
example : parseUint "60000" 8 = none := rfl
example : parseInt "asdf" 64 = none := rfl
example : parseInt "-1125899906842624" 64 = some (-1125899906842624) := rfl
example : parseInt "0x1F" 64 = some 31 := rfl
example : parseInt "-0x80" 8 = some (-128) := rfl
example : parseInt "0x80" 8 = none := rfl
example : parseInt "08" 64 = none := rfl
example : parseBool "true" = some true := rfl
example : parseBool "asdf" = none := rfl
example : tagKey "TEST_UNSET,asdf=asdf,default=1234" = "TEST_UNSET" := rfl
example : tagOpts "TEST_UNSET,asdf=asdf,default=1234" = (false, true, "1234") := rfl
example : tagOpts "TEST_REQUIRED,required" = (true, false, "") := rfl
example : tagOpts "TEST_REQUIRED_DEFAULT,required,default=test" = (true, true, "test") := rfl
example : tagOpts "K,default=1;2;3" = (false, true, "1;2;3") := rfl

-- the `ExampleDecode` scenario: `EXAMPLE_STRING` set, uint16 `default=100`
example :
    Decode (fun k => if k = "EXAMPLE_STRING" then "an example!" else "")
      (.ptrToStruct (.cons (.mk "String" "EXAMPLE_STRING" true (.vString ""))
        (.cons (.mk "Uint16" "EXAMPLE_UINT16,default=100" true (.vUint 16 0)) .nil)))
    = .success (.cons (.mk "String" "EXAMPLE_STRING" true (.vString "an example!"))
        (.cons (.mk "Uint16" "EXAMPLE_UINT16,default=100" true (.vUint 16 100)) .nil)) := rfl

-- a required+default tag reached by the walk aborts the call
example :
    Decode (fun _ => "")
      (.ptrToStruct (.cons
        (.mk "RD" "TEST_REQUIRED_DEFAULT,required,default=test" true (.vString "")) .nil))
    = .panicked := rfl

-- a nil struct pointer stays nil; a nil URL pointer is allocated on parse
example :
    Decode (fun k => if k = "TEST_URL" then "https://example.com" else "")
      (.ptrToStruct (.cons (.mk "NestedPtr" "" true .vStructPtrNil)
        (.cons (.mk "URL" "TEST_URL" true .vURLNil) .nil)))
    = .success (.cons (.mk "NestedPtr" "" true .vStructPtrNil)
        (.cons (.mk "URL" "TEST_URL" true (.vURLSome "https://example.com")) .nil)) := rfl

-- a non-nil URL field is never overwritten (the Elem-reassignment quirk)
example :
    Decode (fun k => if k = "TEST_URL" then "https://example.com" else "")
      (.ptrToStruct (.cons (.mk "URL" "TEST_URL" true (.vURLSome "http://old")) .nil))
    = .success (.cons (.mk "URL" "TEST_URL" true (.vURLSome "http://old")) .nil) := rfl

-- unexported (non-settable) scalar fields are skipped without error
example :
    Decode (fun k => if k = "TEST_STRING" then "foo" else "")
      (.ptrToStruct (.cons (.mk "aString" "TEST_STRING" false (.vString ""))
        (.cons (.mk "S" "TEST_STRING" true (.vString "")) .nil)))
    = .success (.cons (.mk "aString" "TEST_STRING" false (.vString ""))
        (.cons (.mk "S" "TEST_STRING" true (.vString "foo")) .nil)) := rfl

-- a struct with no tagged settable field at any level is ErrInvalidTarget
example :
    Decode (fun _ => "") (.ptrToStruct (.cons (.mk "String" "" true (.vString "")) .nil))
    = .invalidTarget (some (.cons (.mk "String" "" true (.vString "")) .nil)) := rfl

example : Decode (fun _ => "") .nonPtr = .invalidTarget none := rfl
example : Decode (fun _ => "") .nilPtr = .invalidTarget none := rfl
example : Decode (fun _ => "") .ptrToNonStruct = .invalidTarget none := rfl

/-! ## General lemmas about the walk -/



theorem processFieldWith_leaf (co : FieldVal → String → FieldVal) (env : String → String)
    (name tag : String) (val : FieldVal) (h : isLeafVal val = true) :
    processFieldWith co env (.mk name tag true val) = handleTag co env name tag true val := by
  cases val <;> simp_all [processFieldWith, isLeafVal]

theorem handleTag_resolve (co : FieldVal → String → FieldVal) (env : String → String)
    (name tag : String) (val : FieldVal) (htag : tag ≠ "")
    (hpd : ¬((tagOpts tag).1 = true ∧ (tagOpts tag).2.1 = true))
    (hreq : ¬(env (tagKey tag) = "" ∧ (tagOpts tag).1 = true)) :
    handleTag co env name tag true val =
      if (if env (tagKey tag) = "" then (tagOpts tag).2.2 else env (tagKey tag)) = "" then
        .ok (.mk name tag true val) 0
      else
        .ok (.mk name tag true
          (co val (if env (tagKey tag) = "" then (tagOpts tag).2.2 else env (tagKey tag)))) 1 := by
  unfold handleTag
  simp [htag, hpd, hreq]

theorem walkFieldsWith_append (co : FieldVal → String → FieldVal) (env : String → String)
    (l₁ l₂ : Fields) :
    walkFieldsWith co env (l₁.append l₂) =
      match walkFieldsWith co env l₁ with
      | .panic => .panic
      | .errMissing k fs => .errMissing k (fs.append l₂)
      | .ok fs n =>
        match walkFieldsWith co env l₂ with
        | .panic => .panic
        | .errMissing k gs => .errMissing k (fs.append gs)
        | .ok gs m => .ok (fs.append gs) (n + m) := by
  match l₁ with
  | .nil =>
    cases h : walkFieldsWith co env l₂ <;>
      simp [Fields.append, walkFieldsWith, h]
  | .cons f fs =>
    have ih := walkFieldsWith_append co env fs l₂
    show walkFieldsWith co env (.cons f (fs.append l₂)) = _
    cases hp : processFieldWith co env f with
    | panic => simp [walkFieldsWith, hp]
    | errMissing k f' => simp [walkFieldsWith, hp, Fields.append]
    | ok f' n =>
      cases h1 : walkFieldsWith co env fs <;>
        cases h2 : walkFieldsWith co env l₂ <;>
          simp [walkFieldsWith, hp, h1, h2, ih, Fields.append, Nat.add_assoc]



/-- **C2** (amended): for a top-level tagged settable leaf field marked
`required`, with no default and an absent key, the walk stops at that field
with the missing-key error, leaving it and all later fields untouched. -/
theorem c2_top_level_required_missing
    (env : String → String) (pre pre' : Fields) (c : Nat) (name tag : String)
    (val : FieldVal) (post : Fields)
    (hleaf : isLeafVal val = true) (htag : tag ≠ "")
    (hreq : (tagOpts tag).1 = true) (hdef : (tagOpts tag).2.1 = false)
    (henv : env (tagKey tag) = "")
    (hpre : walkFieldsWith coerce env pre = .ok pre' c) :
    walkFieldsWith coerce env (pre.append (.cons (.mk name tag true val) post)) =
      .errMissing (tagKey tag) (pre'.append (.cons (.mk name tag true val) post)) := by
  have hf : walkFieldsWith coerce env (.cons (.mk name tag true val) post)
      = .errMissing (tagKey tag) (.cons (.mk name tag true val) post) := by
    rw [walkFieldsWith, processFieldWith_leaf _ _ _ _ _ hleaf]
    unfold handleTag
    simp [htag, hreq, hdef, henv]
  rw [walkFieldsWith_append, hpre, hf]

/-- **C6** (amended): a settable tagged field whose tag carries both
`required` and a `default=` option makes `Decode` abort with a panic as
soon as the walk reaches it, for every environment and whatever fields
follow — provided the fields before it completed normally. -/
theorem c6_required_default_panics
    (env : String → String) (pre pre' : Fields) (c : Nat) (name tag : String)
    (val : FieldVal) (post : Fields)
    (hleaf : isLeafVal val = true) (htag : tag ≠ "")
    (hreq : (tagOpts tag).1 = true) (hdef : (tagOpts tag).2.1 = true)
    (hpre : walkFieldsWith coerce env pre = .ok pre' c) :
    Decode env (.ptrToStruct (pre.append (.cons (.mk name tag true val) post))) = .panicked := by
  have hf : walkFieldsWith coerce env (.cons (.mk name tag true val) post) = .panic := by
    rw [walkFieldsWith, processFieldWith_leaf _ _ _ _ _ hleaf]
    unfold handleTag
    simp [htag, hreq, hdef]
  rw [Decode]
  rw [show walkFields env (pre.append (.cons (.mk name tag true val) post)) = .panic from ?_]
  rw [walkFields, walkFieldsWith_append, hpre, hf]

/-- **C7**: for every tagged settable leaf field (whose tag neither panics
nor trips the missing-required check), the string used for coercion is the
environment lookup result if non-empty, else the tag's default value, else
empty — in which case the field is left untouched and not counted; and in
particular a field with a default and an absent key is set to the parsed
default (here for an unsigned field shape). -/
theorem c7_value_resolution :
    (∀ (env : String → String) (name tag : String) (val : FieldVal),
      isLeafVal val = true → tag ≠ "" →
      ¬((tagOpts tag).1 = true ∧ (tagOpts tag).2.1 = true) →
      ¬(env (tagKey tag) = "" ∧ (tagOpts tag).1 = true) →
      processFieldWith coerce env (.mk name tag true val) =
        if (if env (tagKey tag) = "" then (tagOpts tag).2.2 else env (tagKey tag)) = "" then
          .ok (.mk name tag true val) 0
        else
          .ok (.mk name tag true
            (coerce val (if env (tagKey tag) = "" then (tagOpts tag).2.2 else env (tagKey tag)))) 1)
    ∧
    (∀ (env : String → String) (name tag : String) (bits u w : Nat),
      tag ≠ "" →
      (tagOpts tag).1 = false →
      env (tagKey tag) = "" →
      parseUint ((tagOpts tag).2.2) bits = some w →
      (tagOpts tag).2.2 ≠ "" →
      processFieldWith coerce env (.mk name tag true (.vUint bits u)) =
        .ok (.mk name tag true (.vUint bits w)) 1) := by
  constructor
  · intro env name tag val hleaf htag hpd hmiss
    rw [processFieldWith_leaf _ _ _ _ _ hleaf, handleTag_resolve _ _ _ _ _ htag hpd hmiss]
  · intro env name tag bits u w htag hreq henv hparse hdv
    rw [processFieldWith_leaf _ _ _ _ (.vUint bits u) rfl,
      handleTag_resolve _ _ _ _ _ htag (by simp [hreq]) (by simp [hreq])]
    rw [henv]
    simp [hdv, coerce, hparse]



/-- **C8**: a tagged settable 64-bit-style integer field whose non-empty
resolved string fails to parse is left at its prior value, produces no
error, and the walk continues through the remaining fields exactly as it
would without this field (the field is still counted). -/
theorem c8_coercion_failure_silent
    (env : String → String) (name tag : String) (bits : Nat) (v : Int) (post : Fields)
    (htag : tag ≠ "")
    (hpd : ¬((tagOpts tag).1 = true ∧ (tagOpts tag).2.1 = true))
    (hmiss : ¬(env (tagKey tag) = "" ∧ (tagOpts tag).1 = true))
    (hres : (if env (tagKey tag) = "" then (tagOpts tag).2.2 else env (tagKey tag)) ≠ "")
    (hparse : parseInt (if env (tagKey tag) = "" then (tagOpts tag).2.2 else env (tagKey tag)) bits
      = none) :
    walkFieldsWith coerce env (.cons (.mk name tag true (.vInt bits v)) post) =
      match walkFieldsWith coerce env post with
      | .panic => .panic
      | .errMissing k fs => .errMissing k (.cons (.mk name tag true (.vInt bits v)) fs)
      | .ok fs m => .ok (.cons (.mk name tag true (.vInt bits v)) fs) (1 + m) := by
  rw [walkFieldsWith, processFieldWith_leaf _ _ _ _ (.vInt bits v) rfl,
    handleTag_resolve _ _ _ _ _ htag hpd hmiss]
  rw [if_neg hres]
  cases h : walkFieldsWith coerce env post <;> simp [coerce, hparse]

/-- **C9**: the walk recurses into a by-value nested record
unconditionally and into an optional (pointer) nested record exactly when
it is non-nil: in both cases the field's new value is the result of
walking the sub-record's fields (a panic inside propagates); a nil nested
record pointer is never walked and never allocated — whatever its tag, the
outcome either aborts the walk or leaves the pointer nil. -/
theorem c9_nested_walk_no_alloc (env : String → String) (name : String) :
    (∀ fs : Fields,
      processFieldWith coerce env (.mk name "" true (.vStruct fs)) =
        match walkFieldsWith coerce env fs with
        | .panic => .panic
        | .errMissing _ fs' => .ok (.mk name "" true (.vStruct fs')) 0
        | .ok fs' _ => .ok (.mk name "" true (.vStruct fs')) 0)
    ∧
    (∀ fs : Fields,
      processFieldWith coerce env (.mk name "" true (.vStructPtr fs)) =
        match walkFieldsWith coerce env fs with
        | .panic => .panic
        | .errMissing _ fs' => .ok (.mk name "" true (.vStructPtr fs')) 0
        | .ok fs' _ => .ok (.mk name "" true (.vStructPtr fs')) 0)
    ∧
    (∀ tag : String,
      processFieldWith coerce env (.mk name tag true .vStructPtrNil) = .panic ∨
      (∃ k, processFieldWith coerce env (.mk name tag true .vStructPtrNil) =
        .errMissing k (.mk name tag true .vStructPtrNil)) ∨
      (∃ c, processFieldWith coerce env (.mk name tag true .vStructPtrNil) =
        .ok (.mk name tag true .vStructPtrNil) c)) := by
  refine ⟨fun fs => ?_, fun fs => ?_, fun tag => ?_⟩
  · cases h : walkFieldsWith coerce env fs <;> simp [processFieldWith, h, handleTag]
  · cases h : walkFieldsWith coerce env fs <;> simp [processFieldWith, h, handleTag]
  · rw [processFieldWith_leaf _ _ _ _ .vStructPtrNil rfl]
    by_cases h0 : tag = ""
    · exact Or.inr (Or.inr ⟨0, by simp [handleTag, h0]⟩)
    · by_cases h1 : (tagOpts tag).1 = true ∧ (tagOpts tag).2.1 = true
      · exact Or.inl (by simp [handleTag, h0, h1])
      · by_cases h2 : env (tagKey tag) = "" ∧ (tagOpts tag).1 = true
        · have hdef : (tagOpts tag).2.1 = false := by
            cases hh : (tagOpts tag).2.1
            · rfl
            · exact absurd ⟨h2.2, hh⟩ h1
          exact Or.inr (Or.inl ⟨tagKey tag, by simp [handleTag, h0, h1, h2, hdef]⟩)
        · by_cases h3 :
            (if env (tagKey tag) = "" then (tagOpts tag).2.2 else env (tagKey tag)) = ""
          · exact Or.inr (Or.inr ⟨0, by simp [handleTag, h0, h1, h2, h3]⟩)
          · exact Or.inr (Or.inr ⟨1, by simp [handleTag, h0, h1, h2, h3, coerce]⟩)

/-- **C10**: a tagged, settable field whose resolved value is non-empty is
counted even when its shape has no supported coercion rule (a slice in
`src/envdecode.go`) or its value fails to parse; consequently a struct
whose only field is such a slice field decodes successfully (not
`InvalidTarget`) with the field keeping its prior value. -/
theorem c10_counter_before_coercion
    (env : String → String) (name tag : String) (elems : List String)
    (htag : tag ≠ "")
    (hpd : ¬((tagOpts tag).1 = true ∧ (tagOpts tag).2.1 = true))
    (hmiss : ¬(env (tagKey tag) = "" ∧ (tagOpts tag).1 = true))
    (hres : (if env (tagKey tag) = "" then (tagOpts tag).2.2 else env (tagKey tag)) ≠ "") :
    processFieldWith coerce env (.mk name tag true (.vSlice elems)) =
      .ok (.mk name tag true (.vSlice elems)) 1
    ∧ Decode env (.ptrToStruct (.cons (.mk name tag true (.vSlice elems)) .nil)) =
      .success (.cons (.mk name tag true (.vSlice elems)) .nil)
    ∧ ∀ (bits : Nat) (v : Int),
        parseInt (if env (tagKey tag) = "" then (tagOpts tag).2.2 else env (tagKey tag)) bits
          = none →
        processFieldWith coerce env (.mk name tag true (.vInt bits v)) =
          .ok (.mk name tag true (.vInt bits v)) 1 := by
  have h1 : processFieldWith coerce env (.mk name tag true (.vSlice elems)) =
      .ok (.mk name tag true (.vSlice elems)) 1 := by
    rw [processFieldWith_leaf _ _ _ _ (.vSlice elems) rfl,
      handleTag_resolve _ _ _ _ _ htag hpd hmiss, if_neg hres]
    simp [coerce]
  refine ⟨h1, ?_, ?_⟩
  · rw [Decode, walkFields, walkFieldsWith, h1]
    simp [walkFieldsWith]
  · intro bits v hparse
    rw [processFieldWith_leaf _ _ _ _ (.vInt bits v) rfl,
      handleTag_resolve _ _ _ _ _ htag hpd hmiss, if_neg hres]
    simp [coerce, hparse]



/-- **C3** (spec-modelled): slice coercion splits the resolved string on
the literal `;`, trims surrounding whitespace from each segment, coerces
each segment independently by the element rule, and assigns the resulting
sequence: (1) whenever every trimmed segment coerces, the result is exactly
the list of coerced segments in order; (2) for `string` elements the result
is the trimmed segments themselves; and (3) in the walk, a tagged slice
field with a non-empty resolved value `s` is assigned the trimmed segments
of `s` split on `;` and counted. -/
theorem c3_slice_coercion :
    (∀ {α : Type} (rule : String → Option α) (segs : List String) (l : List α),
      segs.map (fun seg => rule (trimStr seg)) = l.map some →
      coerceSliceElems rule segs = l)
    ∧
    (∀ segs : List String,
      coerceSliceElems (fun seg => some seg) segs = segs.map trimStr)
    ∧
    (∀ (cap : String → Option String) (env : String → String) (name tag : String)
        (old : List String) (s : String),
      tag ≠ "" →
      ¬((tagOpts tag).1 = true ∧ (tagOpts tag).2.1 = true) →
      env (tagKey tag) = s → s ≠ "" →
      processFieldWith (coerceFull cap) env (.mk name tag true (.vSlice old)) =
        .ok (.mk name tag true
          (.vSlice ((splitChar ';' s.data).map (fun seg => trimStr (String.mk seg))))) 1) := by
  have h1 : ∀ {α : Type} (rule : String → Option α) (segs : List String) (l : List α),
      segs.map (fun seg => rule (trimStr seg)) = l.map some →
      coerceSliceElems rule segs = l := by
    intro α rule segs
    induction segs with
    | nil =>
      intro l h
      cases l
      · rfl
      · simp at h
    | cons seg rest ih =>
      intro l h
      cases l with
      | nil => simp at h
      | cons v vs =>
        simp only [List.map_cons, List.cons.injEq] at h
        rw [coerceSliceElems, h.1, ih vs h.2]
  have h2 : ∀ segs : List String,
      coerceSliceElems (fun seg => some seg) segs = segs.map trimStr := by
    intro segs
    exact h1 _ _ _ (by simp)
  refine ⟨h1, h2, ?_⟩
  intro cap env name tag old s htag hpd henv hs
  rw [processFieldWith_leaf _ _ _ _ (.vSlice old) rfl,
    handleTag_resolve _ _ _ _ _ htag hpd (by rw [henv]; exact fun h => hs h.1)]
  rw [henv, if_neg hs, if_neg hs]
  rw [show coerceFull cap (.vSlice old) s
      = .vSlice (coerceSlice (fun seg => some seg) s) from rfl]
  rw [coerceSlice, h2, List.map_map]
  rfl

/-- **C4** (spec-modelled): a field of a custom-decodable (string-shaped)
type is decoded by invoking its decode capability `cap` on the resolved
string — the field receives `cap`'s output, even though the built-in
string-kind rule (second conjunct, the `coerce` of `src/envdecode.go`)
would have assigned the resolved string verbatim. -/
theorem c4_custom_decoder_precedence
    (cap : String → Option String) (env : String → String)
    (name tag cur s w : String)
    (htag : tag ≠ "")
    (hpd : ¬((tagOpts tag).1 = true ∧ (tagOpts tag).2.1 = true))
    (henv : env (tagKey tag) = s) (hs : s ≠ "") (hcap : cap s = some w) :
    processFieldWith (coerceFull cap) env (.mk name tag true (.vCustom cur)) =
      .ok (.mk name tag true (.vCustom w)) 1
    ∧ coerce (.vCustom cur) s = .vCustom s := by
  constructor
  · rw [processFieldWith_leaf _ _ _ _ (.vCustom cur) rfl,
      handleTag_resolve _ _ _ _ _ htag hpd (by rw [henv]; exact fun h => hs h.1)]
    rw [henv, if_neg hs, if_neg hs]
    simp [coerceFull, hcap]
  · rfl



mutual
theorem collectField_length (env : String → String) (pre : String) :
    ∀ f : Field, (collectField env pre f).length = countBoundLeavesF f
  | .mk name tag canSet val => by
    cases val
    case vStruct fs =>
      have ih := collectFields_length env (pre ++ name ++ ".") fs
      simp [collectField, countBoundLeavesF, apply_ite List.length, ih]
    case vStructPtr fs =>
      have ih := collectFields_length env (pre ++ name ++ ".") fs
      simp [collectField, countBoundLeavesF, apply_ite List.length, ih]
    all_goals simp [collectField, countBoundLeavesF, apply_ite List.length]

theorem collectFields_length (env : String → String) (pre : String) :
    ∀ fs : Fields, (collectFields env pre fs).length = countBoundLeaves fs
  | .nil => by simp [collectFields, countBoundLeaves]
  | .cons f fs => by
    have ih1 := collectField_length env pre f
    have ih2 := collectFields_length env pre fs
    simp [collectFields, countBoundLeaves, ih1, ih2]
end

/-- **C5** (spec-modelled): `Export` on a struct target succeeds with a
report that is a permutation of the depth-first, declaration-order entry
list of the read-only walk (one entry per configuration-bound leaf field,
as counted independently by `countBoundLeaves`), sorted by the stable
total order `ciLe`; being a function of the record and environment alone,
two walks of the same record yield the same (identically ordered) report. -/
theorem c5_export_sorted_complete (env : String → String) (flds : Fields) :
    ∃ l : List ConfigInfo,
      Export env (.ptrToStruct flds) = .ok l ∧
      List.Perm l (collectFields env "" flds) ∧
      List.Sorted ciLe l ∧
      l.length = countBoundLeaves flds := by
  refine ⟨List.insertionSort ciLe (collectFields env "" flds), rfl, ?_, ?_, ?_⟩
  · exact List.perm_insertionSort ciLe _
  · exact List.sorted_insertionSort ciLe _
  · rw [(List.perm_insertionSort ciLe _).length_eq, collectFields_length]

/-- **C1** (code bug): with `TEST_STRING=foo` and a target whose only
field is an untagged by-value sub-record with one tagged field, the nested
walk resolves one field (second conjunct) and yet `Decode` returns the
`InvalidTarget` error: contrary to the claim (and to `TestOnlyNested`),
`setFieldCount` is per-call and the count of the recursive call at line 76
of `src/envdecode.go` is discarded. -/
theorem c1_nested_fields_not_counted :
    Decode (fun k => if k = "TEST_STRING" then "foo" else "")
      (.ptrToStruct (.cons (.mk "Inner" "" true
        (.vStruct (.cons (.mk "String" "TEST_STRING" true (.vString "")) .nil))) .nil))
    = .invalidTarget (some (.cons (.mk "Inner" "" true
        (.vStruct (.cons (.mk "String" "TEST_STRING" true (.vString "foo")) .nil))) .nil))
    ∧ walkFieldsWith coerce (fun k => if k = "TEST_STRING" then "foo" else "")
        (.cons (.mk "String" "TEST_STRING" true (.vString "")) .nil)
      = .ok (.cons (.mk "String" "TEST_STRING" true (.vString "foo")) .nil) 1 :=
  ⟨rfl, rfl⟩

/-- **C2** (counterexample): a required field with an absent key inside a
nested sub-record does *not* make `Decode` return the missing-key error —
the recursive call's error is discarded at line 76 of `src/envdecode.go`
and the call succeeds. -/
theorem c2_counterexample :
    isMissingErr (Decode (fun k => if k = "X" then "xval" else "")
      (.ptrToStruct (.cons (.mk "A" "X" true (.vString ""))
        (.cons (.mk "Sub" "" true
          (.vStruct (.cons (.mk "R" "TEST_REQUIRED,required" true (.vString "")) .nil)))
          .nil)))) = false
    ∧ Decode (fun k => if k = "X" then "xval" else "")
      (.ptrToStruct (.cons (.mk "A" "X" true (.vString ""))
        (.cons (.mk "Sub" "" true
          (.vStruct (.cons (.mk "R" "TEST_REQUIRED,required" true (.vString "")) .nil)))
          .nil)))
      = .success (.cons (.mk "A" "X" true (.vString "xval"))
        (.cons (.mk "Sub" "" true
          (.vStruct (.cons (.mk "R" "TEST_REQUIRED,required" true (.vString "")) .nil)))
          .nil)) :=
  ⟨rfl, rfl⟩

/-- **C6** (counterexample): with an empty environment, a target whose
*second* field is tagged `required,default=` does not abort: the first
field's missing-required error returns from `Decode` before the offending
field is reached, so the call is *not* a fatal abort regardless of the
environment and the other fields. -/
theorem c6_counterexample :
    isPanicRes (Decode (fun _ => "")
      (.ptrToStruct (.cons (.mk "A" "A,required" true (.vString ""))
        (.cons (.mk "B" "B,required,default=x" true (.vString "")) .nil)))) = false
    ∧ Decode (fun _ => "")
      (.ptrToStruct (.cons (.mk "A" "A,required" true (.vString ""))
        (.cons (.mk "B" "B,required,default=x" true (.vString "")) .nil)))
      = .missingKey "A" (.cons (.mk "A" "A,required" true (.vString ""))
        (.cons (.mk "B" "B,required,default=x" true (.vString "")) .nil)) :=
  ⟨rfl, rfl⟩



theorem c2_witness :
    (tagOpts "TEST_REQUIRED,required").1 = true ∧
    walkFieldsWith coerce (fun _ => "")
      (Fields.append .nil
        (.cons (.mk "Required" "TEST_REQUIRED,required" true (.vString "")) .nil))
      = .errMissing "TEST_REQUIRED"
        (Fields.append .nil
          (.cons (.mk "Required" "TEST_REQUIRED,required" true (.vString "")) .nil)) :=
  ⟨rfl, c2_top_level_required_missing (fun _ => "") .nil .nil 0 "Required"
    "TEST_REQUIRED,required" (.vString "") .nil rfl (by decide) rfl rfl rfl rfl⟩

theorem c6_witness :
    Decode (fun _ => "")
      (.ptrToStruct (Fields.append .nil
        (.cons (.mk "RD" "TEST_REQUIRED_DEFAULT,required,default=test" true (.vString ""))
          .nil)))
      = .panicked :=
  c6_required_default_panics (fun _ => "") .nil .nil 0 "RD"
    "TEST_REQUIRED_DEFAULT,required,default=test" (.vString "") .nil rfl (by decide) rfl rfl rfl

theorem c7_witness :
    processFieldWith coerce (fun k => if k = "TEST_STRING" then "foo" else "")
      (.mk "String" "TEST_STRING" true (.vString "")) =
      .ok (.mk "String" "TEST_STRING" true (.vString "foo")) 1
    ∧ processFieldWith coerce (fun _ => "")
      (.mk "DefaultInt" "TEST_UNSET,asdf=asdf,default=1234" true (.vUint 16 0)) =
      .ok (.mk "DefaultInt" "TEST_UNSET,asdf=asdf,default=1234" true (.vUint 16 1234)) 1 :=
  ⟨c7_value_resolution.1 (fun k => if k = "TEST_STRING" then "foo" else "")
      "String" "TEST_STRING" (.vString "") rfl (by decide) (by decide) (by decide),
    c7_value_resolution.2 (fun _ => "") "DefaultInt" "TEST_UNSET,asdf=asdf,default=1234"
      16 0 1234 (by decide) rfl rfl rfl (by decide)⟩

theorem c8_witness :
    walkFieldsWith coerce (fun k => if k = "TEST_INVALID_INT64" then "asdf" else "")
      (.cons (.mk "InvalidInt64" "TEST_INVALID_INT64" true (.vInt 64 0)) .nil)
      = .ok (.cons (.mk "InvalidInt64" "TEST_INVALID_INT64" true (.vInt 64 0)) .nil) 1 :=
  c8_coercion_failure_silent (fun k => if k = "TEST_INVALID_INT64" then "asdf" else "")
    "InvalidInt64" "TEST_INVALID_INT64" 64 0 .nil
    (by decide) (by decide) (by decide) (by decide) rfl

theorem c10_witness :
    Decode (fun k => if k = "TEST_STRING_SLICE" then "foo;bar" else "")
      (.ptrToStruct (.cons (.mk "StringSlice" "TEST_STRING_SLICE" true (.vSlice [])) .nil))
      = .success (.cons (.mk "StringSlice" "TEST_STRING_SLICE" true (.vSlice [])) .nil) :=
  (c10_counter_before_coercion (fun k => if k = "TEST_STRING_SLICE" then "foo;bar" else "")
    "StringSlice" "TEST_STRING_SLICE" [] (by decide) (by decide) (by decide) (by decide)).2.1

theorem c3_witness :
    coerceSliceElems parseBool ["true", " false", " true"] = [true, false, true]
    ∧ processFieldWith (coerceFull (fun _ => none))
      (fun k => if k = "TEST_STRING_SLICE" then "foo;bar" else "")
      (.mk "StringSlice" "TEST_STRING_SLICE" true (.vSlice []))
      = .ok (.mk "StringSlice" "TEST_STRING_SLICE" true (.vSlice ["foo", "bar"])) 1 :=
  ⟨c3_slice_coercion.1 parseBool ["true", " false", " true"] [true, false, true] rfl,
    c3_slice_coercion.2.2 (fun _ => none)
      (fun k => if k = "TEST_STRING_SLICE" then "foo;bar" else "")
      "StringSlice" "TEST_STRING_SLICE" [] "foo;bar" (by decide) (by decide) rfl (by decide)⟩

theorem c4_witness :
    processFieldWith (coerceFull (fun s => some (String.mk s.data.reverse)))
      (fun k => if k = "TEST_DECODER_STRING" then "oof" else "")
      (.mk "DecoderString" "TEST_DECODER_STRING" true (.vCustom ""))
      = .ok (.mk "DecoderString" "TEST_DECODER_STRING" true (.vCustom "foo")) 1
    ∧ coerce (.vCustom "") "oof" = .vCustom "oof" :=
  c4_custom_decoder_precedence (fun s => some (String.mk s.data.reverse))
    (fun k => if k = "TEST_DECODER_STRING" then "oof" else "")
    "DecoderString" "TEST_DECODER_STRING" "" "oof" "foo"
    (by decide) (by decide) rfl (by decide) rfl

end Envdecode
